import Mathlib

/-!
Shallow embedding of `baudrate.py` (class `BaudrateDetector`).

Modelling conventions:
* A byte read from the serial port is a `Nat` (its 8-bit value); `serial.read(1)`
  returning the empty bytestring (read timeout) is `Option.none`.
* The source is Python 3, so the value read at line 102 is a `bytes` object while
  `self.validCharacters` (line 60) is a list of one-character `str` values.  In
  Python 3 a `bytes` value never equals a `str` value, so the membership test at
  line 105, `byte in self.validCharacters`, is always `False`.  This typing is
  modelled explicitly: `PyVal` distinguishes `bytes` from `str` payloads, `pyEq`
  is Python 3 equality on them (cross-type comparison is `False`), and the
  line-105 test is `pyMem (PyVal.bytes b) validCharacters`.  As a consequence
  the qualifying branch of lines 106-113 is dead code in the program; it is
  still transcribed (over the byte's value) to mirror the source structure.
* Timestamps returned by `time.time()` are modelled as integers (`Int`); the source
  uses `startTime == 0` as the "timer unset" sentinel and we keep that encoding.
* `threshold` and `timeout` are `Int`, matching the `type=int` argparse options.
* The loop body of `detectBaudrate` (source lines 98-140) becomes a step function
  `detectStep` on an explicit `DetectorState`.  Each iteration consumes one
  `IterInput`: the byte (or read timeout), the two `time.time()` samples of that
  iteration (line 100 and line 121), and the value of the shared `self.ctlc` flag
  observed at the line-139 check (in manual mode a keypress thread may set it; in
  auto mode nothing ever sets it).
* The local variable `clearCounters` is `False` at the top of every iteration:
  it is set only at lines 115/129 and every such path passes the line-132 block,
  which consumes it, before the iteration ends.  So it is iteration-local here.
* Serial-port side effects (`flush`, assigning `serial.baudrate`, the stderr echo
  at line 117) carry no information used by any claim and are not modelled.
-/

namespace Baudrate

/-- Source lines 37-43: the fixed candidate baud-rate list `BAUDRATES`. -/
def BAUDRATES : List String := [
  "110", "150", "300", "600", "800", "1200", "1600", "1800", "2400", "2604", "3200", "4800",
  "5208", "6400", "9600", "9606", "10417", "12800", "14400", "15625", "14406", "19200", "19211",
  "25600", "26042", "28800", "31250", "38400", "38422", "52083", "57600", "57692", "78600",
  "104167", "115200", "115384", "156250", "230400", "230769", "256000", "312500", "460800",
  "461538", "921600", "923076"]

/-- Source lines 59-60, `_generateCharList`: `[chr(i) for i in range(32, 127)]`,
kept as the character values `32, 33, ..., 126`. -/
def generateCharList : List Nat := List.range' 32 95

/-- A Python value as compared at line 105: the loop's byte is a one-byte
`bytes` object, while `self.validCharacters` holds one-character `str` values
(each carried here by its code point / byte value). -/
inductive PyVal where
  | bytes (b : Nat)
  | str (c : Nat)
deriving Repr, DecidableEq

/-- Python 3 equality on such values: values of different types (`bytes` vs
`str`) are never equal; values of the same type compare their contents. -/
def pyEq : PyVal → PyVal → Bool
  | PyVal.bytes a, PyVal.bytes b => a == b
  | PyVal.str a, PyVal.str b => a == b
  | _, _ => false

/-- Python list membership `x in xs`: some element of `xs` equals `x`. -/
def pyMem (x : PyVal) (xs : List PyVal) : Bool := xs.any (fun y => pyEq x y)

/-- `self.validCharacters` as the line-105 test sees it: a list of `str`
values (the result of `chr`). -/
def validCharacters : List PyVal := generateCharList.map PyVal.str

/-- Source line 106, `byte.isspace()` for a single byte: true exactly on the six
ASCII whitespace bytes recognised by Python `bytes.isspace`. -/
def isWhitespaceByte (b : Nat) : Bool :=
  b == 32 || b == 9 || b == 10 || b == 11 || b == 12 || b == 13

/-- Source line 108, membership of the byte in the punctuation set `.,:;?!`. -/
def isPunctuationByte (b : Nat) : Bool :=
  b == 46 || b == 44 || b == 58 || b == 59 || b == 63 || b == 33

/-- Source line 110, membership of the byte in the vowel set `aeiouAEIOU`. -/
def isVowelByte (b : Nat) : Bool :=
  b == 97 || b == 101 || b == 105 || b == 111 || b == 117 ||
  b == 65 || b == 69 || b == 73 || b == 79 || b == 85

/-- Source lines 73-79, the index arithmetic of `nextBaudrate(updn)`:
`self.index += updn`, then wrap to `0` at or past the end and to `len-1` below `0`.
`n` is `len(self.BAUDRATES)`.  (The serial flushes and the assignment of the new
rate to the port, lines 81-83, are side effects on the serial collaborator and
carry no state modelled here.) -/
def nextBaudrate (n : Nat) (index updn : Int) : Int :=
  let i := index + updn
  if (n : Int) ≤ i then 0
  else if i < 0 then (n : Int) - 1
  else i

/-- Source line 142 (and line 82): `self.BAUDRATES[self.index]`. -/
def rateAt (index : Int) : String := BAUDRATES.getD index.toNat ""

/-- Constructor arguments of `BaudrateDetector.__init__` that the detection loop
reads: `threshold`, `timeout`, `autoDetect`. -/
structure Config where
  threshold : Int
  timeout : Int
  autoDetect : Bool
deriving Repr, DecidableEq

/-- The mutable state carried across iterations of the `while True` loop of
`detectBaudrate`: the four counters (lines 86-89), `startTime` (line 90, with `0`
meaning unset), `timedOut` (line 91), and the detector field `self.index`. -/
structure DetectorState where
  count : Nat
  whitespace : Nat
  punctuation : Nat
  vowels : Nat
  startTime : Int
  timedOut : Bool
  index : Int
deriving Repr, DecidableEq

/-- The external inputs consumed by one loop iteration: the byte returned by
`self.serial.read(1)` (`none` on a read timeout), the values of the two
`time.time()` calls (line 100 and line 121), and the value of `self.ctlc`
observed at the line-139 check. -/
structure IterInput where
  byte : Option Nat
  now1 : Int
  now2 : Int
  ctlc : Bool
deriving Repr, DecidableEq

/-- The four classification counters together with the iteration-local
`clearCounters` flag, as they stand after lines 104-115. -/
structure Counters where
  count : Nat
  whitespace : Nat
  punctuation : Nat
  vowels : Nat
  clearCounters : Bool
deriving Repr, DecidableEq

/-- Source lines 104-115: classification of a received byte.  The counters are
touched only when `self.autoDetect and byte in self.validCharacters` holds —
a `bytes`-vs-`str` membership that is always `False` in Python 3, so in the
program control always reaches line 115 and sets `clearCounters`.  The sub-tag
chain of lines 106-111 with the `count += 1` of line 113 is transcribed over
the byte's value but is dead code (were it ever reached, lines 108/110 would
in fact raise `TypeError` on `bytes in str`). -/
def classifyCounts (cfg : Config) (s : DetectorState) (b : Nat) : Counters :=
  if cfg.autoDetect && pyMem (PyVal.bytes b) validCharacters then
    if isWhitespaceByte b then
      ⟨s.count + 1, s.whitespace + 1, s.punctuation, s.vowels, false⟩
    else if isPunctuationByte b then
      ⟨s.count + 1, s.whitespace, s.punctuation + 1, s.vowels, false⟩
    else if isVowelByte b then
      ⟨s.count + 1, s.whitespace, s.punctuation, s.vowels + 1, false⟩
    else
      ⟨s.count + 1, s.whitespace, s.punctuation, s.vowels, false⟩
  else
    ⟨s.count, s.whitespace, s.punctuation, s.vowels, true⟩

/-- Source line 119: `count >= self.threshold and whitespace > 0 and
punctuation > 0 and vowels > 0`. -/
def successCond (cfg : Config) (c : Counters) : Bool :=
  decide (cfg.threshold ≤ (c.count : Int)) && decide (0 < c.whitespace) &&
  decide (0 < c.punctuation) && decide (0 < c.vowels)

/-- Result of one iteration of the `while True` loop: `success` is the `break`
at line 120 followed by the `return` at line 142, `cancelled` is the `break` at
line 140 followed by the same `return`, and `next` continues the loop. -/
inductive StepResult where
  | success (rate : String)
  | cancelled (rate : String)
  | next (s : DetectorState)
deriving Repr, DecidableEq

/-- Source lines 126-140, the tail of the loop body shared by the byte and
no-byte paths: the auto-mode timeout block (lines 126-130), the counter reset
block (lines 132-137), and the `self.ctlc` check (lines 139-140). -/
def finishIteration (cfg : Config) (c : Counters) (startTime : Int)
    (timedOut : Bool) (index : Int) (ctlc : Bool) : StepResult :=
  let doCycle : Bool := timedOut && cfg.autoDetect
  let startTime2 : Int := if doCycle then 0 else startTime
  let index2 : Int := if doCycle then nextBaudrate BAUDRATES.length index (-1) else index
  let timedOut2 : Bool := if doCycle then false else timedOut
  let clear2 : Bool := c.clearCounters || doCycle
  let count2 : Nat := if clear2 then 0 else c.count
  let whitespace2 : Nat := if clear2 then 0 else c.whitespace
  let punctuation2 : Nat := if clear2 then 0 else c.punctuation
  let vowels2 : Nat := if clear2 then 0 else c.vowels
  if ctlc then StepResult.cancelled (rateAt index2)
  else StepResult.next ⟨count2, whitespace2, punctuation2, vowels2, startTime2, timedOut2, index2⟩

/-- One iteration of the `while True` loop of `detectBaudrate` (lines 98-140).
Line 99-100 set the timer if unset; on a byte, lines 104-115 classify it, line
119 checks the success condition (the index is still the pre-iteration one at
the `break`, so the returned rate is `rateAt s.index`), and line 121 (`elif`)
sets `timedOut` on an elapsed window; with no byte, line 124 sets `timedOut`. -/
def detectStep (cfg : Config) (s : DetectorState) (i : IterInput) : StepResult :=
  let startTime := if s.startTime = 0 then i.now1 else s.startTime
  match i.byte with
  | some b =>
    let c := classifyCounts cfg s b
    if successCond cfg c then
      StepResult.success (rateAt s.index)
    else
      let timedOut := if cfg.timeout ≤ i.now2 - startTime then true else s.timedOut
      finishIteration cfg c startTime timedOut s.index i.ctlc
  | none =>
    finishIteration cfg ⟨s.count, s.whitespace, s.punctuation, s.vowels, false⟩
      startTime true s.index i.ctlc

/-- Outcome of running the loop against a finite list of iteration inputs:
either one of the two `break`/`return` paths was taken, or the inputs were
exhausted with the loop still running in state `s`. -/
inductive LoopOutcome where
  | success (rate : String)
  | cancelled (rate : String)
  | running (s : DetectorState)
deriving Repr, DecidableEq

/-- The `while True` loop of `detectBaudrate`, driven by a finite input trace. -/
def detectRun (cfg : Config) (s : DetectorState) : List IterInput → LoopOutcome
  | [] => LoopOutcome.running s
  | i :: rest =>
    match detectStep cfg s i with
    | StepResult.success r => LoopOutcome.success r
    | StepResult.cancelled r => LoopOutcome.cancelled r
    | StepResult.next s2 => detectRun cfg s2 rest

/-- The state reached after consuming a prefix of inputs with no exit taken
(`none` if the loop exited somewhere inside the prefix). -/
def stateAfter (cfg : Config) (s : DetectorState) : List IterInput → Option DetectorState
  | [] => some s
  | i :: rest =>
    match detectStep cfg s i with
    | StepResult.next s2 => stateAfter cfg s2 rest
    | _ => none

/-- The string returned by `detectBaudrate` (line 142), if the loop exits within
the given inputs.  Both exits return `self.BAUDRATES[self.index]`. -/
def detectResult (cfg : Config) (s : DetectorState) (ins : List IterInput) : Option String :=
  match detectRun cfg s ins with
  | LoopOutcome.success r => some r
  | LoopOutcome.cancelled r => some r
  | LoopOutcome.running _ => none

/-- The loop state at entry to `detectBaudrate`: counters zero (lines 86-89),
timer unset (line 90), `timedOut = False` (line 91), `self.index = 0` (line 52). -/
def initState : DetectorState := ⟨0, 0, 0, 0, 0, false, 0⟩

/-- Spec section 3 invariant: no sub-tag counter exceeds the qualifying total. -/
def countersInv (s : DetectorState) : Prop :=
  s.whitespace ≤ s.count ∧ s.punctuation ≤ s.count ∧ s.vowels ≤ s.count

instance (s : DetectorState) : Decidable (countersInv s) := by
  unfold countersInv
  infer_instance

/-- Python truthiness of `self.name` at line 164: `None` (option absent) and the
empty string are falsy. -/
def nameTruthy : Option String → Bool
  | none => false
  | some s => !s.isEmpty

/-- The detector fields read by `minicomConfig`, plus the outcome of the
attempted file write (`writeOk = false` means `open`/`write` raised, with
`errMsg` the text of the exception). -/
structure MinicomEnv where
  port : String
  name : Option String
  index : Int
  writeOk : Bool
  errMsg : String
deriving Repr, DecidableEq

/-- Source lines 154-162: the minicom configuration text. -/
def configText (port rate : String) : String :=
  "########################################################################\n" ++
  "# Minicom configuration file - use \"minicom -s\" to change parameters.\n" ++
  "pu port             " ++ port ++ "\n" ++
  "pu baudrate         " ++ rate ++ "\n" ++
  "pu bits             8\n" ++
  "pu parity           N\n" ++
  "pu stopbits         1\n" ++
  "pu rtscts           No\n" ++
  "########################################################################\n"

/-- A file write attempted by `minicomConfig` (path and content). -/
structure FileWrite where
  path : String
  content : String
deriving Repr, DecidableEq

/-- Source lines 153-172, `minicomConfig`: returns the `(bool, str)` pair of the
source together with the list of file writes attempted.  With a truthy name the
write of `/etc/minicom/minirc.<name>` is attempted (succeeding or raising per
`writeOk`); otherwise no write is attempted and the failure message is
returned. -/
def minicomConfig (d : MinicomEnv) : (Bool × String) × List FileWrite :=
  let config := configText d.port (rateAt d.index)
  if nameTruthy d.name then
    let path := "/etc/minicom/minirc." ++ d.name.getD ""
    if d.writeOk then
      ((true, config), [⟨path, config⟩])
    else
      ((false, "Error saving minicom config file: " ++ d.errMsg), [⟨path, config⟩])
  else
    ((false, "Configuration name not provided."), [])

/-! ## General lemmas about the embedding -/

/-- The character list built by `_generateCharList` holds exactly the byte
values `32` through `126`. -/
theorem mem_generateCharList (b : Nat) : b ∈ generateCharList ↔ 32 ≤ b ∧ b ≤ 126 := by
  unfold generateCharList
  rw [List.mem_range'_1]
  omega

/-- The tail of the loop body never takes the success exit: the line-120
`break` is only reachable directly from the success check. -/
theorem finishIteration_ne_success (cfg : Config) (c : Counters) (startTime : Int)
    (timedOut : Bool) (index : Int) (ctlc : Bool) (r : String) :
    finishIteration cfg c startTime timedOut index ctlc ≠ StepResult.success r := by
  cases ctlc <;> simp [finishIteration]

/-- The line-105 membership test always fails: the read value is `bytes` while
every element of `validCharacters` is `str`, and Python 3 never equates the
two types. -/
theorem pyMem_bytes_validCharacters (b : Nat) :
    pyMem (PyVal.bytes b) validCharacters = false := by
  have h : ∀ (l : List Nat),
      (l.map PyVal.str).any (fun y => pyEq (PyVal.bytes b) y) = false := by
    intro l
    induction l with
    | nil => rfl
    | cons c rest ih =>
      simp only [List.map_cons, List.any_cons, ih,
        show pyEq (PyVal.bytes b) (PyVal.str c) = false from rfl, Bool.false_or]
  exact h generateCharList

/-- Consequently classification is constant in the program: every received
byte, whatever its value and whatever the mode, leaves the four counters
untouched and marks them for reset. -/
theorem classifyCounts_clears (cfg : Config) (s : DetectorState) (b : Nat) :
    classifyCounts cfg s b =
      ⟨s.count, s.whitespace, s.punctuation, s.vowels, true⟩ := by
  simp [classifyCounts, pyMem_bytes_validCharacters]

/-- With the termination flag observed set, the tail of the loop body always
takes the line-140 `break`, returning the rate at the (possibly just cycled)
index; in particular it never continues the loop. -/
theorem finishIteration_ctlc (cfg : Config) (c : Counters) (startTime : Int)
    (timedOut : Bool) (index : Int) :
    finishIteration cfg c startTime timedOut index true =
      StepResult.cancelled (rateAt (if timedOut && cfg.autoDetect
        then nextBaudrate BAUDRATES.length index (-1) else index)) := by
  simp [finishIteration]

/-- The index arithmetic of `nextBaudrate` always lands in `[0, n)` when the
rate list is non-empty, whatever the starting index and delta. -/
theorem nextBaudrate_range (n : Nat) (hn : 1 ≤ n) (i d : Int) :
    0 ≤ nextBaudrate n i d ∧ nextBaudrate n i d < (n : Int) := by
  simp only [nextBaudrate]
  split_ifs <;> omega

/-- Classification preserves the counter invariant: a sub-tag increment is
always accompanied by the total increment at line 113. -/
theorem classifyCounts_inv (cfg : Config) (s : DetectorState) (b : Nat)
    (h : countersInv s) :
    (classifyCounts cfg s b).whitespace ≤ (classifyCounts cfg s b).count ∧
    (classifyCounts cfg s b).punctuation ≤ (classifyCounts cfg s b).count ∧
    (classifyCounts cfg s b).vowels ≤ (classifyCounts cfg s b).count := by
  obtain ⟨h1, h2, h3⟩ := h
  unfold classifyCounts
  split_ifs <;> simp <;> omega

/-- Classification never decreases the qualifying total. -/
theorem classifyCounts_count_ge (cfg : Config) (s : DetectorState) (b : Nat) :
    s.count ≤ (classifyCounts cfg s b).count := by
  unfold classifyCounts
  split_ifs <;> simp

/-- The loop tail preserves the counter invariant, and the only way the total
can drop is the reset block of lines 132-137, which zeroes all four counters
at once. -/
theorem finishIteration_next_inv (cfg : Config) (c : Counters) (startTime : Int)
    (timedOut : Bool) (index : Int) (ctlc : Bool) (s2 : DetectorState)
    (hc : c.whitespace ≤ c.count ∧ c.punctuation ≤ c.count ∧ c.vowels ≤ c.count)
    (h : finishIteration cfg c startTime timedOut index ctlc = StepResult.next s2) :
    (s2.whitespace ≤ s2.count ∧ s2.punctuation ≤ s2.count ∧ s2.vowels ≤ s2.count) ∧
    (s2.count < c.count → s2.count = 0 ∧ s2.whitespace = 0 ∧ s2.punctuation = 0 ∧
      s2.vowels = 0) := by
  cases ctlc with
  | true => simp [finishIteration] at h
  | false =>
    simp only [finishIteration, Bool.false_eq_true, if_false,
      StepResult.next.injEq] at h
    subst h
    by_cases hcl : (c.clearCounters || (timedOut && cfg.autoDetect)) = true <;>
      simp [hcl] <;> omega

/-- One loop iteration that continues preserves the counter invariant, and a
drop in the total means the reset zeroed all four counters together. -/
theorem detectStep_next_inv (cfg : Config) (s : DetectorState) (i : IterInput)
    (s2 : DetectorState) (hinv : countersInv s)
    (h : detectStep cfg s i = StepResult.next s2) :
    countersInv s2 ∧
    (s2.count < s.count → s2.count = 0 ∧ s2.whitespace = 0 ∧ s2.punctuation = 0 ∧
      s2.vowels = 0) := by
  obtain ⟨byte, now1, now2, ctlc⟩ := i
  cases byte with
  | none =>
    have h2 : finishIteration cfg ⟨s.count, s.whitespace, s.punctuation, s.vowels, false⟩
        (if s.startTime = 0 then now1 else s.startTime) true s.index ctlc =
        StepResult.next s2 := h
    exact finishIteration_next_inv cfg
      ⟨s.count, s.whitespace, s.punctuation, s.vowels, false⟩ _ _ _ _ _ hinv h2
  | some b =>
    rw [show detectStep cfg s ⟨some b, now1, now2, ctlc⟩ =
        (if successCond cfg (classifyCounts cfg s b) then
          StepResult.success (rateAt s.index)
        else
          finishIteration cfg (classifyCounts cfg s b)
            (if s.startTime = 0 then now1 else s.startTime)
            (if cfg.timeout ≤ now2 - (if s.startTime = 0 then now1 else s.startTime)
              then true else s.timedOut) s.index ctlc) from rfl] at h
    by_cases hs : successCond cfg (classifyCounts cfg s b) = true
    · rw [if_pos hs] at h
      cases h
    · rw [if_neg hs] at h
      have hr := finishIteration_next_inv cfg (classifyCounts cfg s b) _ _ _ _ _
        (classifyCounts_inv cfg s b hinv) h
      have hge := classifyCounts_count_ge cfg s b
      exact ⟨hr.1, fun hlt => hr.2 (by omega)⟩

/-- Runs started from the initial state keep the counter invariant at every
intermediate state. -/
theorem stateAfter_inv (cfg : Config) :
    ∀ (ins : List IterInput) (s t : DetectorState), countersInv s →
      stateAfter cfg s ins = some t → countersInv t := by
  intro ins
  induction ins with
  | nil =>
    intro s t h hst
    simp only [stateAfter, Option.some.injEq] at hst
    rwa [← hst]
  | cons i rest ih =>
    intro s t h hst
    cases hstep : detectStep cfg s i with
    | success r => simp [stateAfter, hstep] at hst
    | cancelled r => simp [stateAfter, hstep] at hst
    | next s2 =>
      simp only [stateAfter, hstep] at hst
      exact ih s2 t (detectStep_next_inv cfg s i s2 h hstep).1 hst

/-- Within one iteration, the loop never takes the success exit without a byte:
with `byte = none` control goes straight to line 124. -/
theorem detectStep_success_iff (cfg : Config) (s : DetectorState) (i : IterInput)
    (r : String) :
    detectStep cfg s i = StepResult.success r ↔
      ∃ b, i.byte = some b ∧ successCond cfg (classifyCounts cfg s b) = true ∧
        r = rateAt s.index := by
  obtain ⟨byte, now1, now2, ctlc⟩ := i
  cases byte with
  | none =>
    constructor
    · intro h
      exact absurd h (finishIteration_ne_success cfg _ _ _ _ _ _)
    · rintro ⟨b, hb, -, -⟩
      simp at hb
  | some b =>
    rw [show detectStep cfg s ⟨some b, now1, now2, ctlc⟩ =
        (if successCond cfg (classifyCounts cfg s b) then
          StepResult.success (rateAt s.index)
        else
          finishIteration cfg (classifyCounts cfg s b)
            (if s.startTime = 0 then now1 else s.startTime)
            (if cfg.timeout ≤ now2 - (if s.startTime = 0 then now1 else s.startTime)
              then true else s.timedOut) s.index ctlc) from rfl]
    by_cases hs : successCond cfg (classifyCounts cfg s b) = true
    · rw [if_pos hs]
      constructor
      · intro h
        rw [StepResult.success.injEq] at h
        exact ⟨b, rfl, hs, h.symm⟩
      · rintro ⟨b2, hb2, -, hr⟩
        simp only [Option.some.injEq] at hb2
        rw [hr]
    · rw [if_neg hs]
      constructor
      · intro h
        exact absurd h (finishIteration_ne_success cfg _ _ _ _ _ _)
      · rintro ⟨b2, hb2, hs2, -⟩
        simp only [Option.some.injEq] at hb2
        subst hb2
        exact absurd hs2 hs

/-- A run exits with SUCCESS precisely when some iteration, reached without an
earlier exit, takes the success break. -/
theorem detectRun_success_decomp (cfg : Config) :
    ∀ (ins : List IterInput) (s : DetectorState) (r : String),
      detectRun cfg s ins = LoopOutcome.success r ↔
        ∃ pre inp post s2, ins = pre ++ inp :: post ∧
          stateAfter cfg s pre = some s2 ∧
          detectStep cfg s2 inp = StepResult.success r := by
  intro ins
  induction ins with
  | nil =>
    intro s r
    constructor
    · intro h
      simp [detectRun] at h
    · rintro ⟨pre, inp, post, s2, hins, -, -⟩
      exact absurd hins (by simp)
  | cons i rest ih =>
    intro s r
    cases hstep : detectStep cfg s i with
    | success r2 =>
      simp only [detectRun, hstep]
      constructor
      · intro h
        simp only [LoopOutcome.success.injEq] at h
        subst h
        exact ⟨[], i, rest, s, rfl, rfl, hstep⟩
      · rintro ⟨pre, inp, post, s2, hins, hstate, hstep2⟩
        cases pre with
        | nil =>
          simp only [List.nil_append, List.cons.injEq] at hins
          obtain ⟨hi, -⟩ := hins
          simp only [stateAfter, Option.some.injEq] at hstate
          subst hi
          rw [← hstate] at hstep2
          rw [hstep] at hstep2
          simp only [StepResult.success.injEq] at hstep2
          rw [hstep2]
        | cons p pre2 =>
          simp only [List.cons_append, List.cons.injEq] at hins
          obtain ⟨hi, -⟩ := hins
          subst hi
          simp [stateAfter, hstep] at hstate
    | cancelled r2 =>
      simp only [detectRun, hstep]
      constructor
      · intro h
        cases h
      · rintro ⟨pre, inp, post, s2, hins, hstate, hstep2⟩
        cases pre with
        | nil =>
          simp only [List.nil_append, List.cons.injEq] at hins
          obtain ⟨hi, -⟩ := hins
          simp only [stateAfter, Option.some.injEq] at hstate
          subst hi
          rw [← hstate] at hstep2
          rw [hstep] at hstep2
          cases hstep2
        | cons p pre2 =>
          simp only [List.cons_append, List.cons.injEq] at hins
          obtain ⟨hi, -⟩ := hins
          subst hi
          simp [stateAfter, hstep] at hstate
    | next s2 =>
      simp only [detectRun, hstep]
      rw [ih s2 r]
      constructor
      · rintro ⟨pre, inp, post, s3, hrest, hstate, hstep2⟩
        exact ⟨i :: pre, inp, post, s3, by rw [hrest, List.cons_append],
          by simp [stateAfter, hstep, hstate], hstep2⟩
      · rintro ⟨pre, inp, post, s3, hins, hstate, hstep2⟩
        cases pre with
        | nil =>
          simp only [List.nil_append, List.cons.injEq] at hins
          obtain ⟨hi, -⟩ := hins
          simp only [stateAfter, Option.some.injEq] at hstate
          subst hi
          rw [← hstate] at hstep2
          rw [hstep] at hstep2
          cases hstep2
        | cons p pre2 =>
          simp only [List.cons_append, List.cons.injEq] at hins
          obtain ⟨hi, hrest⟩ := hins
          subst hi
          simp only [stateAfter, hstep] at hstate
          exact ⟨pre2, inp, post, s3, hrest, hstate, hstep2⟩

/-- With a zero whitespace counter, the line-119 check cannot pass (its second
conjunct requires `whitespace > 0` and classification never increments), so
the iteration cannot take the success break. -/
theorem detectStep_not_success_of_ws_zero (cfg : Config) (s : DetectorState)
    (i : IterInput) (r : String) (h : s.whitespace = 0) :
    detectStep cfg s i ≠ StepResult.success r := by
  intro hcon
  obtain ⟨b, -, hs, -⟩ := (detectStep_success_iff cfg s i r).1 hcon
  rw [classifyCounts_clears] at hs
  simp [successCond, h] at hs

/-- The loop tail keeps a zero whitespace counter at zero. -/
theorem finishIteration_next_ws (cfg : Config) (c : Counters) (startTime : Int)
    (timedOut : Bool) (index : Int) (ctlc : Bool) (s2 : DetectorState)
    (hc : c.whitespace = 0)
    (h : finishIteration cfg c startTime timedOut index ctlc = StepResult.next s2) :
    s2.whitespace = 0 := by
  cases ctlc with
  | true => simp [finishIteration] at h
  | false =>
    simp only [finishIteration, Bool.false_eq_true, if_false,
      StepResult.next.injEq] at h
    subst h
    by_cases hcl : (c.clearCounters || (timedOut && cfg.autoDetect)) = true <;>
      simp [hcl, hc]

/-- A continuing iteration keeps a zero whitespace counter at zero: the
classification of the program never increments it, and the reset zeroes it. -/
theorem detectStep_next_ws_zero (cfg : Config) (s : DetectorState) (i : IterInput)
    (s2 : DetectorState) (h : s.whitespace = 0)
    (hstep : detectStep cfg s i = StepResult.next s2) : s2.whitespace = 0 := by
  obtain ⟨byte, now1, now2, ctlc⟩ := i
  cases byte with
  | none =>
    have h2 : finishIteration cfg ⟨s.count, s.whitespace, s.punctuation, s.vowels, false⟩
        (if s.startTime = 0 then now1 else s.startTime) true s.index ctlc =
        StepResult.next s2 := hstep
    exact finishIteration_next_ws cfg _ _ _ _ _ _ h h2
  | some b =>
    rw [show detectStep cfg s ⟨some b, now1, now2, ctlc⟩ =
        (if successCond cfg (classifyCounts cfg s b) then
          StepResult.success (rateAt s.index)
        else
          finishIteration cfg (classifyCounts cfg s b)
            (if s.startTime = 0 then now1 else s.startTime)
            (if cfg.timeout ≤ now2 - (if s.startTime = 0 then now1 else s.startTime)
              then true else s.timedOut) s.index ctlc) from rfl] at hstep
    by_cases hs : successCond cfg (classifyCounts cfg s b) = true
    · rw [if_pos hs] at hstep
      cases hstep
    · rw [if_neg hs] at hstep
      refine finishIteration_next_ws cfg (classifyCounts cfg s b) _ _ _ _ _ ?_ hstep
      rw [classifyCounts_clears]
      exact h

/-- No run of the loop from a state with zero whitespace counter ever exits in
SUCCESS. -/
theorem detectRun_ws_zero_not_success (cfg : Config) :
    ∀ (ins : List IterInput) (s : DetectorState), s.whitespace = 0 →
      ∀ r, detectRun cfg s ins ≠ LoopOutcome.success r := by
  intro ins
  induction ins with
  | nil =>
    intro s h r hcon
    simp [detectRun] at hcon
  | cons i rest ih =>
    intro s h r hcon
    cases hstep : detectStep cfg s i with
    | success r2 => exact detectStep_not_success_of_ws_zero cfg s i r2 h hstep
    | cancelled r2 => simp [detectRun, hstep] at hcon
    | next s2 =>
      simp only [detectRun, hstep] at hcon
      exact ih s2 (detectStep_next_ws_zero cfg s i s2 h hstep) r hcon

/-- The loop tail keeps all-zero counters all zero. -/
theorem finishIteration_next_zero (cfg : Config) (c : Counters) (startTime : Int)
    (timedOut : Bool) (index : Int) (ctlc : Bool) (s2 : DetectorState)
    (hc : c.count = 0 ∧ c.whitespace = 0 ∧ c.punctuation = 0 ∧ c.vowels = 0)
    (h : finishIteration cfg c startTime timedOut index ctlc = StepResult.next s2) :
    s2.count = 0 ∧ s2.whitespace = 0 ∧ s2.punctuation = 0 ∧ s2.vowels = 0 := by
  cases ctlc with
  | true => simp [finishIteration] at h
  | false =>
    simp only [finishIteration, Bool.false_eq_true, if_false,
      StepResult.next.injEq] at h
    subst h
    by_cases hcl : (c.clearCounters || (timedOut && cfg.autoDetect)) = true <;>
      simp [hcl, hc.1, hc.2.1, hc.2.2.1, hc.2.2.2]

/-- A continuing iteration of the program keeps all-zero counters all zero:
nothing is ever counted. -/
theorem detectStep_next_zero (cfg : Config) (s : DetectorState) (i : IterInput)
    (s2 : DetectorState)
    (h : s.count = 0 ∧ s.whitespace = 0 ∧ s.punctuation = 0 ∧ s.vowels = 0)
    (hstep : detectStep cfg s i = StepResult.next s2) :
    s2.count = 0 ∧ s2.whitespace = 0 ∧ s2.punctuation = 0 ∧ s2.vowels = 0 := by
  obtain ⟨byte, now1, now2, ctlc⟩ := i
  cases byte with
  | none =>
    have h2 : finishIteration cfg ⟨s.count, s.whitespace, s.punctuation, s.vowels, false⟩
        (if s.startTime = 0 then now1 else s.startTime) true s.index ctlc =
        StepResult.next s2 := hstep
    exact finishIteration_next_zero cfg _ _ _ _ _ _ h h2
  | some b =>
    rw [show detectStep cfg s ⟨some b, now1, now2, ctlc⟩ =
        (if successCond cfg (classifyCounts cfg s b) then
          StepResult.success (rateAt s.index)
        else
          finishIteration cfg (classifyCounts cfg s b)
            (if s.startTime = 0 then now1 else s.startTime)
            (if cfg.timeout ≤ now2 - (if s.startTime = 0 then now1 else s.startTime)
              then true else s.timedOut) s.index ctlc) from rfl] at hstep
    by_cases hs : successCond cfg (classifyCounts cfg s b) = true
    · rw [if_pos hs] at hstep
      cases hstep
    · rw [if_neg hs] at hstep
      refine finishIteration_next_zero cfg (classifyCounts cfg s b) _ _ _ _ _ ?_ hstep
      rw [classifyCounts_clears]
      exact h

/-- Every state the loop reaches from the initial state has all four counters
at zero. -/
theorem stateAfter_zero (cfg : Config) :
    ∀ (ins : List IterInput) (s t : DetectorState),
      (s.count = 0 ∧ s.whitespace = 0 ∧ s.punctuation = 0 ∧ s.vowels = 0) →
      stateAfter cfg s ins = some t →
      t.count = 0 ∧ t.whitespace = 0 ∧ t.punctuation = 0 ∧ t.vowels = 0 := by
  intro ins
  induction ins with
  | nil =>
    intro s t h hst
    simp only [stateAfter, Option.some.injEq] at hst
    rwa [← hst]
  | cons i rest ih =>
    intro s t h hst
    cases hstep : detectStep cfg s i with
    | success r => simp [stateAfter, hstep] at hst
    | cancelled r => simp [stateAfter, hstep] at hst
    | next s2 =>
      simp only [stateAfter, hstep] at hst
      exact ih s2 t (detectStep_next_zero cfg s i s2 h hstep) hst

/-- With a reset already marked and no termination signal, the loop tail
continues with all four counters zeroed. -/
theorem finishIteration_clear_next (cfg : Config) (c : Counters) (startTime : Int)
    (timedOut : Bool) (index : Int) (hc : c.clearCounters = true) :
    ∃ u, finishIteration cfg c startTime timedOut index false = StepResult.next u ∧
      u.count = 0 ∧ u.whitespace = 0 ∧ u.punctuation = 0 ∧ u.vowels = 0 := by
  refine ⟨_, rfl, ?_, ?_, ?_, ?_⟩ <;> simp [hc]

/-! ## Claims -/

/-- C4: for every candidate rate list length `n ≥ 1`, `advance(+1)` from the
last index wraps to `0`, `advance(-1)` from `0` wraps to the last index, and
from any other in-range index `advance(±1)` is plain addition of the delta.
(`nextBaudrate` is a total function, so the "never fails" part is inherent.) -/
theorem nextBaudrate_wraparound (n : Nat) (i : Int)
    (hn : 1 ≤ n) (h0 : 0 < i) (h1 : i + 1 < (n : Int)) :
    nextBaudrate n ((n : Int) - 1) 1 = 0 ∧
    nextBaudrate n 0 (-1) = (n : Int) - 1 ∧
    nextBaudrate n i 1 = i + 1 ∧
    nextBaudrate n i (-1) = i - 1 := by
  refine ⟨?_, ?_, ?_, ?_⟩ <;> simp only [nextBaudrate] <;> split_ifs <;> omega

/-- C4 witness: instantiated at the source list length `45` and index `3`. -/
theorem nextBaudrate_wraparound_witness :
    nextBaudrate 45 ((45 : Int) - 1) 1 = 0 ∧
    nextBaudrate 45 0 (-1) = (45 : Int) - 1 ∧
    nextBaudrate 45 3 1 = 3 + 1 ∧
    nextBaudrate 45 3 (-1) = 3 - 1 :=
  nextBaudrate_wraparound 45 3 (by decide) (by decide) (by decide)

/-- C8: starting from index `0`, any sequence of `advance(+1)` / `advance(-1)`
operations keeps the Rate Cycler index inside `[0, len(BAUDRATES))`. -/
theorem cycler_index_in_range (ds : List Int)
    (h : ∀ d ∈ ds, d = 1 ∨ d = -1) :
    0 ≤ List.foldl (fun i d => nextBaudrate BAUDRATES.length i d) 0 ds ∧
    List.foldl (fun i d => nextBaudrate BAUDRATES.length i d) 0 ds <
      (BAUDRATES.length : Int) := by
  have hlen : (1 : Nat) ≤ BAUDRATES.length := by decide
  suffices h2 : ∀ (l : List Int) (i : Int), 0 ≤ i → i < (BAUDRATES.length : Int) →
      0 ≤ List.foldl (fun j d => nextBaudrate BAUDRATES.length j d) i l ∧
      List.foldl (fun j d => nextBaudrate BAUDRATES.length j d) i l <
        (BAUDRATES.length : Int) by
    exact h2 ds 0 (by omega) (by decide)
  intro l
  induction l with
  | nil => intro i hi0 hi1; exact ⟨hi0, hi1⟩
  | cons d rest ih =>
    intro i hi0 hi1
    have hr := nextBaudrate_range BAUDRATES.length hlen i d
    exact ih (nextBaudrate BAUDRATES.length i d) hr.1 hr.2

/-- C8 witness: a concrete sequence of four advances. -/
theorem cycler_index_in_range_witness :
    0 ≤ List.foldl (fun i d => nextBaudrate BAUDRATES.length i d) 0 [1, -1, -1, 1] ∧
    List.foldl (fun i d => nextBaudrate BAUDRATES.length i d) 0 [1, -1, -1, 1] <
      (BAUDRATES.length : Int) :=
  cycler_index_in_range [1, -1, -1, 1] (by decide)

/-- C2 (code bug): the character list built at line 60 does cover exactly the
printable values `[32, 126]` — that is plainly the intended classifier — but
the membership test the loop actually runs at line 105 compares a `bytes`
value against that list of `str` values, which is always `False` in Python 3.
So, contrary to the claim, no byte value whatsoever is ever marked qualifying:
for every byte (the in-range ones included) the counters are left untouched
and marked for reset. -/
theorem classifier_never_qualifies (cfg : Config) (s : DetectorState) (b : Nat) :
    (b ∈ generateCharList ↔ 32 ≤ b ∧ b ≤ 126) ∧
    pyMem (PyVal.bytes b) validCharacters = false ∧
    (classifyCounts cfg s b).count = s.count ∧
    (classifyCounts cfg s b).whitespace = s.whitespace ∧
    (classifyCounts cfg s b).punctuation = s.punctuation ∧
    (classifyCounts cfg s b).vowels = s.vowels ∧
    (classifyCounts cfg s b).clearCounters = true := by
  refine ⟨mem_generateCharList b, pyMem_bytes_validCharacters b, ?_, ?_, ?_, ?_, ?_⟩ <;>
    simp [classifyCounts_clears]

/-- C10: when the configuration name is absent (not provided, or empty, hence
falsy at line 164), `minicomConfig` returns the failure pair with message
"Configuration name not provided." and attempts no file write; and any
attempted write implies a (truthy) name was present. -/
theorem minicomConfig_requires_name (d e : MinicomEnv)
    (hd : nameTruthy d.name = false) :
    minicomConfig d = ((false, "Configuration name not provided."), []) ∧
    ((minicomConfig e).2 ≠ [] → nameTruthy e.name = true) := by
  constructor
  · simp [minicomConfig, hd]
  · intro hne
    cases he : nameTruthy e.name with
    | true => rfl
    | false => exact absurd (by simp [minicomConfig, he]) hne

/-- C1 (code bug): the spec's own acceptance stream — a space, a comma and a
vowel within the window, threshold 3 — does *not* terminate the loop in
SUCCESS: because line 105's `bytes`-vs-`str` membership is always `False`, no
byte is counted, the loop is still running with all counters at zero after the
stream, no rate is returned, and in general no run from the initial state ever
exits in SUCCESS, for any configuration and any input stream (the line-119
check needs `whitespace > 0`, and that counter never leaves zero). -/
theorem detect_success_unreachable :
    detectRun ⟨3, 100, true⟩ initState
      [⟨some 32, 10, 11, false⟩, ⟨some 44, 12, 13, false⟩, ⟨some 101, 14, 15, false⟩] =
      LoopOutcome.running ⟨0, 0, 0, 0, 10, false, 0⟩ ∧
    detectResult ⟨3, 100, true⟩ initState
      [⟨some 32, 10, 11, false⟩, ⟨some 44, 12, 13, false⟩, ⟨some 101, 14, 15, false⟩] =
      none ∧
    (∀ (cfg : Config) (ins : List IterInput) (r : String),
      detectRun cfg initState ins ≠ LoopOutcome.success r) :=
  ⟨by decide, by decide,
   fun cfg ins r => detectRun_ws_zero_not_success cfg ins initState rfl r⟩

/-- C9: at every point of the detection loop the sub-tag counters never exceed
the qualifying total (all counters are naturals, hence non-negative): the
invariant is preserved by every continuing iteration, a drop of the total only
happens through the reset block that zeroes all four counters together, and
every state reachable from the initial state satisfies the invariant. -/
theorem counters_invariant (cfg : Config) (s : DetectorState) (i : IterInput)
    (s2 : DetectorState) (hinv : countersInv s)
    (hstep : detectStep cfg s i = StepResult.next s2) :
    countersInv s2 ∧
    (s2.count < s.count →
      s2.count = 0 ∧ s2.whitespace = 0 ∧ s2.punctuation = 0 ∧ s2.vowels = 0) ∧
    (∀ ins t, stateAfter cfg initState ins = some t → countersInv t) := by
  obtain ⟨ha, hb⟩ := detectStep_next_inv cfg s i s2 hinv hstep
  exact ⟨ha, hb, fun ins t hst =>
    stateAfter_inv cfg ins initState t (by simp [countersInv, initState]) hst⟩

/-- C9 witness: the step taken on byte `97` at the initial state yields a
state satisfying the invariant. -/
theorem counters_invariant_witness :
    countersInv ⟨0, 0, 0, 0, 0, false, 0⟩ :=
  (counters_invariant ⟨25, 5, true⟩ initState ⟨some 97, 0, 0, false⟩
    ⟨0, 0, 0, 0, 0, false, 0⟩ (by simp [countersInv, initState]) (by decide)).1

/-- C3: in auto-detect mode, at any state the loop can actually be in (reached
from the initial state), whenever the elapsed time since the window timer was
set reaches the timeout — or the read returns no byte — the iteration resets
the window timer to unset (`0`), advances the Rate Cycler backward by exactly
one step (delta `-1` with wrap-around) and zeroes all four counters.  No
success proviso is needed: at reachable states the whitespace counter is zero
(nothing is ever counted), so the line-119 check cannot preempt the `elif` at
line 121.  The `ctlc` hypothesis is innocuous: in auto-detect mode no keypress
thread is started (lines 94-96), so `self.ctlc` is never set. -/
theorem timeout_advances_rate (cfg : Config) (pre : List IterInput)
    (s : DetectorState) (i : IterInput)
    (hreach : stateAfter cfg initState pre = some s)
    (hauto : cfg.autoDetect = true) (hctlc : i.ctlc = false)
    (ht : i.byte = none ∨ ((∃ b, i.byte = some b) ∧
      cfg.timeout ≤ i.now2 - (if s.startTime = 0 then i.now1 else s.startTime))) :
    detectStep cfg s i = StepResult.next
      ⟨0, 0, 0, 0, 0, false, nextBaudrate BAUDRATES.length s.index (-1)⟩ := by
  have hz := stateAfter_zero cfg pre initState s (by simp [initState]) hreach
  obtain ⟨byte, now1, now2, ctlc⟩ := i
  simp only at hctlc ht
  subst hctlc
  rcases ht with hb | ⟨⟨b, hb⟩, helapsed⟩
  · subst hb
    simp [detectStep, finishIteration, hauto]
  · subst hb
    have hnosucc : successCond cfg (classifyCounts cfg s b) = false := by
      rw [classifyCounts_clears]
      simp [successCond, hz.2.1]
    simp [detectStep, finishIteration, hauto, hnosucc, helapsed]

/-- C3 witness: a read timeout (no byte) at the initial state cycles backward
to index 44 with timer unset and counters zeroed. -/
theorem timeout_advances_rate_witness :
    detectStep ⟨25, 5, true⟩ initState ⟨none, 9, 9, false⟩ =
      StepResult.next ⟨0, 0, 0, 0, 0, false, nextBaudrate BAUDRATES.length 0 (-1)⟩ :=
  timeout_advances_rate ⟨25, 5, true⟩ [] initState ⟨none, 9, 9, false⟩
    rfl rfl rfl (Or.inl rfl)

/-- C5 counterexample: the claim says the cancellation exit asserts no
detected rate and the caller can distinguish it from success.  In the source
the line-140 `break` taken on `self.ctlc` falls through to the very same
`return self.BAUDRATES[self.index]` (line 142) that serves the success break:
this cancelled run returns `"110"`, a value from the candidate rate list, so a
baud rate *is* asserted and the return value carries no mark of
cancellation. -/
theorem ctlc_return_counterexample :
    detectRun ⟨25, 5, false⟩ initState [⟨none, 3, 3, true⟩] =
      LoopOutcome.cancelled "110" ∧
    detectResult ⟨25, 5, false⟩ initState [⟨none, 3, 3, true⟩] = some "110" ∧
    "110" ∈ BAUDRATES := by
  refine ⟨by decide, by decide, by decide⟩

/-- C5 amended: whenever the Termination Signal (`self.ctlc`) is observed set,
the iteration does not continue the loop — it exits at once (through the
line-140 `break` or, if the success check fired first, the line-120 `break`) —
but the exit returns `self.BAUDRATES[self.index]` exactly as a success does,
so the return value does not distinguish cancellation from success. -/
theorem ctlc_exits_iteration (cfg : Config) (s : DetectorState) (i : IterInput)
    (hctlc : i.ctlc = true) :
    (∃ r, detectStep cfg s i = StepResult.success r ∨
      detectStep cfg s i = StepResult.cancelled r) ∧
    (∀ s2, detectStep cfg s i ≠ StepResult.next s2) := by
  obtain ⟨byte, now1, now2, ctlc⟩ := i
  simp only at hctlc
  subst hctlc
  cases byte with
  | none =>
    rw [show detectStep cfg s ⟨none, now1, now2, true⟩ =
        finishIteration cfg ⟨s.count, s.whitespace, s.punctuation, s.vowels, false⟩
          (if s.startTime = 0 then now1 else s.startTime) true s.index true from rfl,
      finishIteration_ctlc]
    exact ⟨⟨_, Or.inr rfl⟩, fun s2 => by simp⟩
  | some b =>
    by_cases hs : successCond cfg (classifyCounts cfg s b) = true
    · constructor
      · exact ⟨rateAt s.index, Or.inl (by simp [detectStep, hs])⟩
      · intro s2
        simp [detectStep, hs]
    · rw [Bool.not_eq_true] at hs
      rw [show detectStep cfg s ⟨some b, now1, now2, true⟩ =
          (if successCond cfg (classifyCounts cfg s b) then
            StepResult.success (rateAt s.index)
          else
            finishIteration cfg (classifyCounts cfg s b)
              (if s.startTime = 0 then now1 else s.startTime)
              (if cfg.timeout ≤ now2 - (if s.startTime = 0 then now1 else s.startTime)
                then true else s.timedOut) s.index true) from rfl,
        hs]
      simp only [Bool.false_eq_true, if_false]
      rw [finishIteration_ctlc]
      exact ⟨⟨_, Or.inr rfl⟩, fun s2 => by simp⟩

/-- C5 witness: with the signal set and no byte available, the loop exits the
iteration (with the cancelled break). -/
theorem ctlc_exits_iteration_witness :
    (∃ r, detectStep ⟨25, 5, false⟩ initState ⟨none, 3, 3, true⟩ = StepResult.success r ∨
      detectStep ⟨25, 5, false⟩ initState ⟨none, 3, 3, true⟩ = StepResult.cancelled r) ∧
    (∀ s2, detectStep ⟨25, 5, false⟩ initState ⟨none, 3, 3, true⟩ ≠ StepResult.next s2) :=
  ctlc_exits_iteration ⟨25, 5, false⟩ initState ⟨none, 3, 3, true⟩ rfl

/-- C6 counterexample: with auto-detect disabled, a read timeout (no byte) at a
state with non-zero counters leaves the counters exactly as they were — they
are *not* marked for reset (line 126's block requires `self.autoDetect`, and
`clearCounters` is only set on a received byte at line 115).  Only the inert
`timedOut` flag changes, contradicting the claim's "marks the classification
counters for reset". -/
theorem manual_timeout_counterexample :
    detectStep ⟨25, 5, false⟩ ⟨2, 1, 1, 0, 1, false, 0⟩ ⟨none, 9, 9, false⟩ =
      StepResult.next ⟨2, 1, 1, 0, 1, true, 0⟩ := by
  decide

/-- C6 amended: when auto-detect is disabled, a timeout (here: a read that
yields no byte, with the window timer already set) changes nothing at all
except setting the internal `timedOut` flag (which nothing in manual mode ever
reads): the counters keep their values — no reset is marked — and the Rate
Cycler index, hence the current rate, and the window timer are unchanged. -/
theorem manual_timeout_noop (cfg : Config) (s : DetectorState) (i : IterInput)
    (hman : cfg.autoDetect = false) (hb : i.byte = none) (hctlc : i.ctlc = false)
    (hst : s.startTime ≠ 0) :
    detectStep cfg s i = StepResult.next
      ⟨s.count, s.whitespace, s.punctuation, s.vowels, s.startTime, true, s.index⟩ := by
  obtain ⟨byte, now1, now2, ctlc⟩ := i
  simp only at hb hctlc
  subst hb
  subst hctlc
  simp [detectStep, finishIteration, hman, hst]

/-- C6 witness: concrete manual-mode read timeout leaving state unchanged but
for the `timedOut` flag. -/
theorem manual_timeout_noop_witness :
    detectStep ⟨25, 5, false⟩ ⟨3, 1, 1, 1, 7, false, 2⟩ ⟨none, 20, 20, false⟩ =
      StepResult.next ⟨3, 1, 1, 1, 7, true, 2⟩ :=
  manual_timeout_noop ⟨25, 5, false⟩ ⟨3, 1, 1, 1, 7, false, 2⟩ ⟨none, 20, 20, false⟩
    rfl rfl rfl (by decide)

/-- C7 counterexample: byte `97` (letter a), squarely in the printable range
of the line-60 character list, is not counted in *either* mode: in auto-detect
mode the line-105 membership is the always-`False` `bytes`-vs-`str` test, and
in manual mode the conjunction fails on `self.autoDetect` already.  In both
modes the step at state `2/1/1/0` zeroes the counters instead of incrementing
them, contradicting "a qualifying byte increments the total counter and its
matching sub-tag counter" in each mode. -/
theorem byte_not_counted_counterexample :
    (97 : Nat) ∈ generateCharList ∧
    detectStep ⟨25, 5, true⟩ ⟨2, 1, 1, 0, 1, false, 0⟩ ⟨some 97, 2, 2, false⟩ =
      StepResult.next ⟨0, 0, 0, 0, 1, false, 0⟩ ∧
    detectStep ⟨25, 5, false⟩ ⟨2, 1, 1, 0, 1, false, 0⟩ ⟨some 97, 2, 2, false⟩ =
      StepResult.next ⟨0, 0, 0, 0, 1, false, 0⟩ := by
  refine ⟨by decide, by decide, by decide⟩

/-- C7 amended: on every loop iteration in which a byte was read, the byte is
indeed processed the same way regardless of mode, but that uniform treatment
is "never counted": in both auto-detect and manual mode the line-105 test
fails (in auto mode because the `bytes`-vs-`str` membership is always `False`
in Python 3, in manual mode because `self.autoDetect` is `False`), so every
received byte leaves the counters unincremented and marks them for reset,
which zeroes all four before the iteration ends. -/
theorem byte_never_counted (cfg : Config) (s : DetectorState) (i : IterInput)
    (b : Nat) (hb : i.byte = some b) (hctlc : i.ctlc = false)
    (hnosucc : successCond cfg (classifyCounts cfg s b) = false) :
    (classifyCounts cfg s b).count = s.count ∧
    (classifyCounts cfg s b).whitespace = s.whitespace ∧
    (classifyCounts cfg s b).punctuation = s.punctuation ∧
    (classifyCounts cfg s b).vowels = s.vowels ∧
    (classifyCounts cfg s b).clearCounters = true ∧
    (∃ u, detectStep cfg s i = StepResult.next u ∧
      u.count = 0 ∧ u.whitespace = 0 ∧ u.punctuation = 0 ∧ u.vowels = 0) := by
  obtain ⟨byte, now1, now2, ctlc⟩ := i
  simp only at hb hctlc
  subst hb
  subst hctlc
  refine ⟨by simp [classifyCounts_clears], by simp [classifyCounts_clears],
    by simp [classifyCounts_clears], by simp [classifyCounts_clears],
    by simp [classifyCounts_clears], ?_⟩
  rw [show detectStep cfg s ⟨some b, now1, now2, false⟩ =
      (if successCond cfg (classifyCounts cfg s b) then
        StepResult.success (rateAt s.index)
      else
        finishIteration cfg (classifyCounts cfg s b)
          (if s.startTime = 0 then now1 else s.startTime)
          (if cfg.timeout ≤ now2 - (if s.startTime = 0 then now1 else s.startTime)
            then true else s.timedOut) s.index false) from rfl, hnosucc]
  simp only [Bool.false_eq_true, if_false]
  exact finishIteration_clear_next cfg (classifyCounts cfg s b) _ _ _
    (by simp [classifyCounts_clears])

/-- C7 witness: in auto-detect mode the in-range byte `97` leaves the counters
`2/1/1/0` unincremented, marks a reset, and the iteration continues with all
four counters zeroed. -/
theorem byte_never_counted_witness :
    (classifyCounts ⟨25, 5, true⟩ ⟨2, 1, 1, 0, 1, false, 0⟩ 97).count = 2 ∧
    (classifyCounts ⟨25, 5, true⟩ ⟨2, 1, 1, 0, 1, false, 0⟩ 97).whitespace = 1 ∧
    (classifyCounts ⟨25, 5, true⟩ ⟨2, 1, 1, 0, 1, false, 0⟩ 97).punctuation = 1 ∧
    (classifyCounts ⟨25, 5, true⟩ ⟨2, 1, 1, 0, 1, false, 0⟩ 97).vowels = 0 ∧
    (classifyCounts ⟨25, 5, true⟩ ⟨2, 1, 1, 0, 1, false, 0⟩ 97).clearCounters = true ∧
    (∃ u, detectStep ⟨25, 5, true⟩ ⟨2, 1, 1, 0, 1, false, 0⟩ ⟨some 97, 2, 2, false⟩ =
      StepResult.next u ∧
      u.count = 0 ∧ u.whitespace = 0 ∧ u.punctuation = 0 ∧ u.vowels = 0) :=
  byte_never_counted ⟨25, 5, true⟩ ⟨2, 1, 1, 0, 1, false, 0⟩ ⟨some 97, 2, 2, false⟩ 97
    rfl rfl (by decide)

/-- C10 witness: a detector with no name yields the failure pair and no write;
a detector with name "cfg" has a truthy name. -/
theorem minicomConfig_requires_name_witness :
    minicomConfig ⟨"/dev/ttyUSB0", none, 0, true, ""⟩ =
      ((false, "Configuration name not provided."), []) ∧
    nameTruthy (MinicomEnv.name ⟨"/dev/ttyUSB0", some "cfg", 0, true, ""⟩) = true :=
  ⟨(minicomConfig_requires_name ⟨"/dev/ttyUSB0", none, 0, true, ""⟩
      ⟨"/dev/ttyUSB0", some "cfg", 0, true, ""⟩ rfl).1,
   (minicomConfig_requires_name ⟨"/dev/ttyUSB0", none, 0, true, ""⟩
      ⟨"/dev/ttyUSB0", some "cfg", 0, true, ""⟩ rfl).2 (by decide)⟩

end Baudrate
